import Mathlib

/-!
A verification development for the reminder/todo Discord bot (`src/bot.py`).

The embedding models:
* the Gregorian calendar arithmetic used by the Python `datetime` library
  (a `DateTime` is a civil timestamp `year-month-day` plus minutes past
  midnight; the bot pins every datetime to the single configured timezone,
  which we model as a fixed UTC offset, so instant comparison coincides with
  civil comparison and `timedelta` arithmetic acts on the civil fields);
* the pure helper functions of the bot (`parse_reminders`, `add_month`,
  `next_occurrence`, `parse_date_time`, `todo_is_relevant`,
  `can_modify_todo`);
* the state snapshot (`{events, next_event_id, todos, next_todo_id}`) and the
  state-mutating operations: the reminder loop tick and the slash-command
  handlers `termin`, `ptermin`, `termin_absagen`, `termin_edit`.
-/

/-- Gregorian leap-year test, the semantics of `calendar.isleap` /
`datetime`. -/
def isLeap (y : Nat) : Bool :=
  y % 4 == 0 && (y % 100 != 0 || y % 400 == 0)

/-- Number of days in month `m` of year `y` (Python `datetime` calendar). -/
def daysInMonth (y m : Nat) : Nat :=
  if m = 2 then (if isLeap y then 29 else 28)
  else if m = 4 ∨ m = 6 ∨ m = 9 ∨ m = 11 then 30
  else 31

/-- Days in year `y` before the first day of month `m` (for `1 ≤ m ≤ 12`). -/
def daysBeforeMonth (y : Nat) : Nat → Nat
  | 0 => 0
  | m + 1 => if m = 0 then 0 else daysBeforeMonth y m + daysInMonth y m

/-- Days before January 1st of year `y`, as in CPython's
`date.toordinal`: `(y-1)*365 + (y-1)//4 - (y-1)//100 + (y-1)//400`
(rearranged so the natural-number subtraction cannot truncate). -/
def daysBeforeYear (y : Nat) : Nat :=
  (y - 1) * 365 + (y - 1) / 4 + (y - 1) / 400 - (y - 1) / 100

/-- A Python `datetime` in the bot's single configured timezone:
civil date plus `tod` = minutes past midnight (`hour*60 + minute`;
the bot only ever constructs whole-minute datetimes). -/
structure DateTime where
  year : Nat
  month : Nat
  day : Nat
  tod : Nat
deriving DecidableEq, Repr

/-- Proleptic-Gregorian ordinal of the date (day 0001-01-01 ↦ 1),
CPython's `date.toordinal`. -/
def toOrdinal (dt : DateTime) : Nat :=
  daysBeforeYear dt.year + daysBeforeMonth dt.year dt.month + dt.day

/-- The instant of a `DateTime`, in minutes.  Under the fixed-offset
abstraction two aware datetimes compare exactly as their `toMin` values. -/
def toMin (dt : DateTime) : Nat :=
  toOrdinal dt * 1440 + dt.tod

/-- The `DateTime` is a value the `datetime` constructor accepts. -/
def DateTime.ValidDT (dt : DateTime) : Prop :=
  1 ≤ dt.year ∧ 1 ≤ dt.month ∧ dt.month ≤ 12 ∧ 1 ≤ dt.day ∧
    dt.day ≤ daysInMonth dt.year dt.month ∧ dt.tod < 1440

instance (dt : DateTime) : Decidable dt.ValidDT := by
  unfold DateTime.ValidDT; infer_instance

/-- Successor day (the civil effect of `+ timedelta(days=1)`). -/
def nextDay (dt : DateTime) : DateTime :=
  if dt.day < daysInMonth dt.year dt.month then { dt with day := dt.day + 1 }
  else if dt.month < 12 then { dt with month := dt.month + 1, day := 1 }
  else { year := dt.year + 1, month := 1, day := 1, tod := dt.tod }

/-- Predecessor day (the civil effect of `- timedelta(days=1)`). -/
def prevDay (dt : DateTime) : DateTime :=
  if dt.day > 1 then { dt with day := dt.day - 1 }
  else if dt.month > 1 then
    { dt with month := dt.month - 1, day := daysInMonth dt.year (dt.month - 1) }
  else { year := dt.year - 1, month := 12, day := 31, tod := dt.tod }

/-- `dt + timedelta(days=k)`. -/
def addDays (dt : DateTime) : Nat → DateTime
  | 0 => dt
  | k + 1 => nextDay (addDays dt k)

/-- `add_month` from `src/bot.py` (lines 97-107): advance to the next
calendar month, where the last day of the target month is computed as
`(first day of the following month) - timedelta(days=1)`, and the
day-of-month is clamped with `min`.  `dt.replace(...)` keeps the time of
day. -/
def add_month (dt : DateTime) : DateTime :=
  let y := dt.year
  let m := dt.month + 1
  let y := if m = 13 then dt.year + 1 else y
  let m := if m = 13 then 1 else m
  let next_month : DateTime :=
    if m = 12 then ⟨y + 1, 1, 1, 0⟩ else ⟨y, m + 1, 1, 0⟩
  let last_day := (prevDay next_month).day
  { dt with year := y, month := m, day := min dt.day last_day }

/-- `(recurrence or "none").lower()` — the normalisation applied by the
reminder loop and by `next_occurrence`.  A missing/`None` field is modelled
as the empty string. -/
def recNorm (s : String) : String :=
  String.mk (List.map Char.toLower (if s.data = [] then ['n', 'o', 'n', 'e'] else s.data))

/-- `next_occurrence` from `src/bot.py` (lines 109-117). -/
def next_occurrence (dt : DateTime) (recurrence : String) : DateTime :=
  let r := recNorm recurrence
  if r = "daily" then addDays dt 1
  else if r = "weekly" then addDays dt 7
  else if r = "monthly" then add_month dt
  else dt

-- ### Calendar lemmas

theorem daysInMonth_pos (y m : Nat) : 28 ≤ daysInMonth y m := by
  unfold daysInMonth
  split
  · split <;> omega
  · split <;> omega

theorem daysBeforeMonth_succ (y m : Nat) (h : 1 ≤ m) :
    daysBeforeMonth y (m + 1) = daysBeforeMonth y m + daysInMonth y m := by
  obtain ⟨k, rfl⟩ : ∃ k, m = k + 1 := ⟨m - 1, by omega⟩
  simp [daysBeforeMonth]

theorem daysBeforeMonth_twelve (y : Nat) :
    daysBeforeMonth y 12 = 334 + (if isLeap y then 1 else 0) := by
  simp only [daysBeforeMonth, daysInMonth]
  norm_num
  split <;> omega

theorem isLeap_iff (y : Nat) :
    isLeap y = true ↔ (y % 4 = 0 ∧ (y % 100 ≠ 0 ∨ y % 400 = 0)) := by
  unfold isLeap
  simp [Bool.and_eq_true, Bool.or_eq_true]

theorem daysBeforeYear_succ (y : Nat) (h : 1 ≤ y) :
    daysBeforeYear (y + 1) =
      daysBeforeYear y + 365 + (if isLeap y then 1 else 0) := by
  unfold daysBeforeYear
  simp only [Nat.add_sub_cancel]
  by_cases hl : isLeap y = true
  · obtain ⟨h4, hor⟩ := (isLeap_iff y).mp hl
    rw [if_pos hl]
    rcases hor with h' | h' <;> omega
  · have hn : ¬(y % 4 = 0 ∧ (y % 100 ≠ 0 ∨ y % 400 = 0)) :=
      fun hcon => hl ((isLeap_iff y).mpr hcon)
    rw [if_neg hl]
    rcases Classical.em (y % 4 = 0) with h4 | h4
    · rcases Classical.em (y % 100 = 0) with h100 | h100
      · rcases Classical.em (y % 400 = 0) with h400 | h400
        · exact absurd ⟨h4, Or.inr h400⟩ hn
        · omega
      · exact absurd ⟨h4, Or.inl h100⟩ hn
    · omega

theorem nextDay_case1 {dt : DateTime}
    (h : dt.day < daysInMonth dt.year dt.month) :
    nextDay dt = ⟨dt.year, dt.month, dt.day + 1, dt.tod⟩ := by
  unfold nextDay; rw [if_pos h]

theorem nextDay_case2 {dt : DateTime}
    (h : ¬ dt.day < daysInMonth dt.year dt.month) (h2 : dt.month < 12) :
    nextDay dt = ⟨dt.year, dt.month + 1, 1, dt.tod⟩ := by
  unfold nextDay; rw [if_neg h, if_pos h2]

theorem nextDay_case3 {dt : DateTime}
    (h : ¬ dt.day < daysInMonth dt.year dt.month) (h2 : ¬ dt.month < 12) :
    nextDay dt = ⟨dt.year + 1, 1, 1, dt.tod⟩ := by
  unfold nextDay; rw [if_neg h, if_neg h2]

theorem valid_nextDay {dt : DateTime} (h : dt.ValidDT) :
    (nextDay dt).ValidDT := by
  obtain ⟨hy, hm1, hm2, hd1, hd2, ht⟩ := h
  by_cases h1 : dt.day < daysInMonth dt.year dt.month
  · rw [nextDay_case1 h1]
    exact ⟨hy, hm1, hm2, by show 1 ≤ dt.day + 1; omega,
      by show dt.day + 1 ≤ daysInMonth dt.year dt.month; exact h1, ht⟩
  · by_cases h2 : dt.month < 12
    · rw [nextDay_case2 h1 h2]
      have hpos := daysInMonth_pos dt.year (dt.month + 1)
      exact ⟨hy, by show 1 ≤ dt.month + 1; omega,
        by show dt.month + 1 ≤ 12; omega, by show (1 : Nat) ≤ 1; omega,
        by show 1 ≤ daysInMonth dt.year (dt.month + 1); omega, ht⟩
    · rw [nextDay_case3 h1 h2]
      have h31 : daysInMonth (dt.year + 1) 1 = 31 := by
        unfold daysInMonth; norm_num
      exact ⟨by show 1 ≤ dt.year + 1; omega, by show (1 : Nat) ≤ 1; omega,
        by show (1 : Nat) ≤ 12; omega, by show (1 : Nat) ≤ 1; omega,
        by show 1 ≤ daysInMonth (dt.year + 1) 1; omega, ht⟩

theorem toMin_nextDay {dt : DateTime} (h : dt.ValidDT) :
    toMin (nextDay dt) = toMin dt + 1440 := by
  obtain ⟨hy, hm1, hm2, hd1, hd2, ht⟩ := h
  by_cases h1 : dt.day < daysInMonth dt.year dt.month
  · rw [nextDay_case1 h1]
    show (daysBeforeYear dt.year + daysBeforeMonth dt.year dt.month +
        (dt.day + 1)) * 1440 + dt.tod =
      (daysBeforeYear dt.year + daysBeforeMonth dt.year dt.month + dt.day) *
        1440 + dt.tod + 1440
    omega
  · have hdeq : dt.day = daysInMonth dt.year dt.month := by omega
    by_cases h2 : dt.month < 12
    · rw [nextDay_case2 h1 h2]
      show (daysBeforeYear dt.year + daysBeforeMonth dt.year (dt.month + 1) +
          1) * 1440 + dt.tod =
        (daysBeforeYear dt.year + daysBeforeMonth dt.year dt.month + dt.day) *
          1440 + dt.tod + 1440
      rw [daysBeforeMonth_succ dt.year dt.month hm1]
      omega
    · rw [nextDay_case3 h1 h2]
      have hm12 : dt.month = 12 := by omega
      have hdim : daysInMonth dt.year 12 = 31 := by
        unfold daysInMonth; norm_num
      have h334 := daysBeforeMonth_twelve dt.year
      have hone : daysBeforeMonth (dt.year + 1) 1 = 0 := by
        simp [daysBeforeMonth]
      show (daysBeforeYear (dt.year + 1) + daysBeforeMonth (dt.year + 1) 1 +
          1) * 1440 + dt.tod =
        (daysBeforeYear dt.year + daysBeforeMonth dt.year dt.month + dt.day) *
          1440 + dt.tod + 1440
      rw [daysBeforeYear_succ dt.year hy, hone, hm12, h334]
      rw [hm12, hdim] at hdeq
      split <;> omega

theorem valid_addDays {dt : DateTime} (h : dt.ValidDT) (k : Nat) :
    (addDays dt k).ValidDT := by
  induction k with
  | zero => exact h
  | succ k ih => exact valid_nextDay ih

theorem toMin_addDays {dt : DateTime} (h : dt.ValidDT) (k : Nat) :
    toMin (addDays dt k) = toMin dt + k * 1440 := by
  induction k with
  | zero => simp [addDays]
  | succ k ih =>
    have := toMin_nextDay (valid_addDays h k)
    simp only [addDays]
    omega

-- ### String primitives
-- (re-implemented structurally over `String.data` so every parser is
-- kernel-computable; each models the Python string method it names)

/-- Python `str.split(sep)` for a one-character separator. -/
def pySplit (sep : Char) : List Char → List (List Char)
  | [] => [[]]
  | c :: cs =>
    match pySplit sep cs with
    | [] => [[c]]
    | h :: t => if c = sep then [] :: h :: t else (c :: h) :: t

/-- Python `str.strip()` (over the ASCII whitespace the bot can see). -/
def pyStrip (l : List Char) : List Char :=
  ((l.dropWhile Char.isWhitespace).reverse.dropWhile Char.isWhitespace).reverse

/-- Python `str.lower()`. -/
def pyLower (l : List Char) : List Char :=
  l.map Char.toLower

/-- Decimal value of a digit string. -/
def digitsToNat (l : List Char) : Nat :=
  l.foldl (fun a c => a * 10 + (c.toNat - 48)) 0

/-- Python `int(str)` on a stripped token: an optional sign followed by
digits; anything else raises `ValueError` (modelled as `none`).  (Python
additionally tolerates underscores between digits, which no claim
involves.) -/
def pyIntChars : List Char → Option Int
  | '-' :: rest =>
    if rest ≠ [] ∧ rest.all Char.isDigit then some (-(digitsToNat rest : Int))
    else none
  | '+' :: rest =>
    if rest ≠ [] ∧ rest.all Char.isDigit then some (digitsToNat rest : Int)
    else none
  | l =>
    if l ≠ [] ∧ l.all Char.isDigit then some (digitsToNat l : Int)
    else none

-- ### `parse_date_time` (`src/bot.py` lines 50-52)

/-- A numeric token of `minLen`-`maxLen` digits, as matched by the
`strptime` field regexes (`%d`/`%m`/`%H`/`%M` take 1-2 digits, `%Y` takes
exactly 4). -/
def parseNum (l : List Char) (minLen maxLen : Nat) : Option Nat :=
  if minLen ≤ l.length ∧ l.length ≤ maxLen ∧ l.all Char.isDigit then
    some (digitsToNat l)
  else none

/-- `parse_date_time` from `src/bot.py` (lines 50-52):
`datetime.strptime(f"{date_str} {time_str}", "%d.%m.%Y %H:%M")`.
`strptime` bounds each field and the `datetime` constructor additionally
checks the day against the month length and `MINYEAR = 1`; unparsable input
raises, modelled as `none`. -/
def parse_date_time (date_str time_str : String) : Option DateTime :=
  match pySplit '.' date_str.data with
  | [ds, ms, ys] =>
    match pySplit ':' time_str.data with
    | [hs, mins] => do
      let d ← parseNum ds 1 2
      let m ← parseNum ms 1 2
      let y ← parseNum ys 4 4
      let h ← parseNum hs 1 2
      let mi ← parseNum mins 1 2
      if 1 ≤ y ∧ 1 ≤ m ∧ m ≤ 12 ∧ 1 ≤ d ∧ d ≤ daysInMonth y m ∧
          h ≤ 23 ∧ mi ≤ 59 then
        some ⟨y, m, d, h * 60 + mi⟩
      else none
    | _ => none
  | _ => none

-- ### `parse_reminders` (`src/bot.py` lines 54-69)

/-- Insert into a descending-sorted list. -/
def insertDesc (m : Int) : List Int → List Int
  | [] => [m]
  | x :: xs => if x ≤ m then m :: x :: xs else x :: insertDesc m xs

/-- Insertion sort, descending. -/
def sortDesc : List Int → List Int
  | [] => []
  | x :: xs => insertDesc x (sortDesc xs)

/-- `sorted(list(<set>), reverse=True)` for the deduplicated contents of an
integer list (on distinct values the descending ordering is unique, so this
is exactly the Python result). -/
def sortedDescDedup (l : List Int) : List Int :=
  sortDesc l.dedup

/-- Insert into an ascending-sorted list. -/
def insertAsc (m : Int) : List Int → List Int
  | [] => [m]
  | x :: xs => if m ≤ x then m :: x :: xs else x :: insertAsc m xs

/-- Insertion sort, ascending. -/
def sortAsc : List Int → List Int
  | [] => []
  | x :: xs => insertAsc x (sortAsc xs)

/-- `sorted(list(<set>))` (ascending). -/
def sortedAscDedup (l : List Int) : List Int :=
  sortAsc l.dedup

/-- One token of the reminder string: `"10m"`/`"2h"`/`"1d"`/plain minutes
(the token is already stripped and lower-cased). -/
def reminderToken (p : List Char) : Option Int :=
  if p.getLast? = some 'm' then pyIntChars p.dropLast
  else if p.getLast? = some 'h' then (fun n => n * 60) <$> pyIntChars p.dropLast
  else if p.getLast? = some 'd' then
    (fun n => n * 1440) <$> pyIntChars p.dropLast
  else pyIntChars p

/-- `parse_reminders` from `src/bot.py` (lines 54-69).  Note the final line
`sorted(set(x for x in out if x >= 0), reverse=True)`: tokens that parse to
a negative number are silently filtered out, not rejected; only a
non-numeric token raises (`Except.error`). -/
def parse_reminders (rem_str : String) : Except Unit (List Int) :=
  if pyStrip rem_str.data = [] then Except.ok []
  else
    match (((pySplit ',' (pyStrip rem_str.data)).filter
        (fun p => pyStrip p ≠ [])).map
        (fun p => pyLower (pyStrip p))).mapM reminderToken with
    | some out => Except.ok (sortedDescDedup (out.filter (fun x => 0 ≤ x)))
    | none => Except.error ()

/-- Python `titel.strip()` at the `String` level. -/
def pyStripS (s : String) : String :=
  String.mk (pyStrip s.data)

-- ### Formatting (`strftime`), used by `termin_edit`'s date defaults

/-- Decimal digits of a natural number (fuel-structural). -/
def natDigits : Nat → List Char
  | 0 => ['0']
  | n + 1 =>
    let rec go : Nat → Nat → List Char
      | _, 0 => []
      | 0, _ => []
      | fuel + 1, k =>
        go fuel (k / 10) ++ [Char.ofNat (48 + k % 10)]
    go (n + 1) (n + 1)

/-- Zero-pad to two digits (`%d`, `%m`, `%H`, `%M`). -/
def pad2 (n : Nat) : List Char :=
  if n < 10 then '0' :: natDigits n else natDigits n

/-- Zero-pad to four digits (`%Y`). -/
def pad4 (n : Nat) : List Char :=
  if n < 10 then '0' :: '0' :: '0' :: natDigits n
  else if n < 100 then '0' :: '0' :: natDigits n
  else if n < 1000 then '0' :: natDigits n
  else natDigits n

/-- `dt.strftime("%d.%m.%Y")`. -/
def fmtDate (dt : DateTime) : String :=
  String.mk (pad2 dt.day ++ ['.'] ++ pad2 dt.month ++ ['.'] ++ pad4 dt.year)

/-- `dt.strftime("%H:%M")`. -/
def fmtTime (dt : DateTime) : String :=
  String.mk (pad2 (dt.tod / 60) ++ [':'] ++ pad2 (dt.tod % 60))

-- ### Data model (the persisted snapshot of `data.json`)

/-- An event's delivery target: `{"type": "channel", "channel_id": ...}` or
`{"type": "dm", "user_ids": [...]}`. -/
inductive Target where
  | channel (channelId : Int)
  | dm (userIds : List Int)
deriving DecidableEq, Repr

/-- An entry of `data["events"]`. -/
structure Event where
  id : Int
  title : String
  datetime : DateTime
  reminders : List Int
  sent : List Int
  recurrence : String
  cancelled : Bool
  target : Target
  createdBy : Int
deriving DecidableEq, Repr

/-- An entry of `data["todos"]`.  `assignedUser`/`assignedRole` model
`assigned_user_id`/`assigned_role_id` (the stored JSON value is `None`
unless the matching scope selected it; `todo_is_relevant` and
`can_modify_todo` only read each field inside the branch for its scope, so
we store the integer that `int(...)` would produce there). -/
structure Todo where
  id : Int
  title : String
  scope : String
  assignedUser : Int
  assignedRole : Int
  createdBy : Int
  done : Bool
  deleted : Bool
deriving DecidableEq, Repr

/-- The actor snapshot a handler sees: a `discord.Member` with its id, its
role-id set and the `guild_permissions.manage_guild` bit. -/
structure Member where
  id : Int
  roles : List Int
  manageGuild : Bool
deriving DecidableEq, Repr

/-- The whole persisted snapshot (`load_data`/`save_data` shape). -/
structure State where
  events : List Event
  nextEventId : Int
  todos : List Todo
  nextTodoId : Int
deriving DecidableEq, Repr

/-- `load_data()` on a missing or unreadable file: the empty defaults. -/
def initState : State := ⟨[], 1, [], 1⟩

-- ### Todo visibility / authorization (`src/bot.py` lines 232-257)

/-- `user_role_ids`: the member's role-id set. -/
def user_role_ids (member : Member) : List Int :=
  member.roles

/-- `todo_is_relevant` from `src/bot.py` (lines 235-248). -/
def todo_is_relevant (todo : Todo) (member : Member) : Bool :=
  if todo.deleted then false
  else if todo.scope = "public" then true
  else if todo.scope = "private" then todo.createdBy == member.id
  else if todo.scope = "user" then
    todo.assignedUser == member.id || todo.createdBy == member.id
  else if todo.scope = "role" then
    decide (todo.assignedRole ∈ user_role_ids member) ||
      todo.createdBy == member.id
  else false

/-- `can_modify_todo` from `src/bot.py` (lines 250-257). -/
def can_modify_todo (todo : Todo) (member : Member) : Bool :=
  if todo.createdBy == member.id then true
  else if todo.scope = "user" && todo.assignedUser == member.id then true
  else if member.manageGuild then true
  else false

-- ### The reminder loop, happy path (`src/bot.py` lines 183-227)

/-- The window test of line 200:
`n >= (dt - timedelta(minutes=m)) and n < dt + timedelta(hours=24)`.
Aware datetimes compare as instants, i.e. by `toMin`. -/
def dueB (n dt : DateTime) (m : Int) : Bool :=
  decide ((toMin dt : Int) - m ≤ (toMin n : Int)) &&
    decide ((toMin n : Int) < (toMin dt : Int) + 1440)

/-- `sent.add(m); ev["sent"] = sorted(list(sent), reverse=True)`. -/
def sentInsert (m : Int) (sent : List Int) : List Int :=
  sortedDescDedup (m :: sent)

/-- The `for m in reminders` loop (lines 197-210), with every send
succeeding: returns the updated `sent` list and the offsets delivered, in
processing order. -/
def remindersPass (n dt : DateTime) : List Int → List Int → List Int × List Int
  | [], sent => (sent, [])
  | m :: rest, sent =>
    if m ∈ sent then remindersPass n dt rest sent
    else if dueB n dt m then
      let res := remindersPass n dt rest (sentInsert m sent)
      (res.1, m :: res.2)
    else remindersPass n dt rest sent

/-- One iteration of `for ev in data["events"]` (lines 189-219), with every
send succeeding: the reminder pass, then the rollover step (lines 212-219),
which uses the datetime read at line 193. -/
def tickEvent (n : DateTime) (ev : Event) : Event × List Int :=
  if ev.cancelled then (ev, [])
  else
    let dt := ev.datetime
    let res := remindersPass n dt ev.reminders ev.sent
    let ev1 : Event := { ev with sent := res.1 }
    if toMin dt ≤ toMin n then
      let rec_ := recNorm ev.recurrence
      if rec_ ≠ "none" then
        ({ ev1 with datetime := next_occurrence dt rec_, sent := [] }, res.2)
      else
        ({ ev1 with cancelled := true }, res.2)
    else (ev1, res.2)

/-- A whole scheduler tick over the snapshot, with every send succeeding:
events are processed independently; deliveries are tagged with the event
id.  (`save_data` is called when anything changed; persisting an unchanged
snapshot is the identity, so the returned state is the persisted one either
way.) -/
def tickState (n : DateTime) (s : State) : State × List (Int × Int) :=
  ({ s with events := s.events.map (fun ev => (tickEvent n ev).1) },
    (s.events.map (fun ev => (tickEvent n ev).2.map (fun m => (ev.id, m)))).flatten)

-- ### The reminder loop with per-recipient delivery failures

/-- One notification handed to the platform adapter. -/
inductive Delivery where
  | channel (eid channelId : Int) (offset : Int)
  | dm (eid userId : Int) (offset : Int)
deriving DecidableEq, Repr

/-- `for uid in ev["target"]["user_ids"]: await send_dm(uid, msg)`
(lines 205-206).  There is no try/except here: the first failing
recipient raises, so later recipients are not attempted.  Returns the
attempts actually made (the raising one included) and whether all
succeeded. -/
def sendDMs (fails : Int → Bool) (eid m : Int) :
    List Int → List Delivery × Bool
  | [] => ([], true)
  | u :: rest =>
    if fails u then ([Delivery.dm eid u m], false)
    else
      let res := sendDMs fails eid m rest
      (Delivery.dm eid u m :: res.1, res.2)

/-- Lines 202-206: channel broadcast (one send, modelled as succeeding) or
the DM fan-out. -/
def deliverF (fails : Int → Bool) (eid m : Int) :
    Target → List Delivery × Bool
  | Target.channel cid => ([Delivery.channel eid cid m], true)
  | Target.dm uids => sendDMs fails eid m uids

/-- The `for m in reminders` loop with failures: on a raise the offset is
NOT added to `sent` (line 208 is never reached) and the loop aborts. -/
def remPassF (fails : Int → Bool) (n dt : DateTime) (eid : Int)
    (tgt : Target) : List Int → List Int → List Int × List Delivery × Bool
  | [], sent => (sent, [], true)
  | m :: rest, sent =>
    if m ∈ sent then remPassF fails n dt eid tgt rest sent
    else if dueB n dt m then
      if (deliverF fails eid m tgt).2 then
        ((remPassF fails n dt eid tgt rest (sentInsert m sent)).1,
          (deliverF fails eid m tgt).1 ++
            (remPassF fails n dt eid tgt rest (sentInsert m sent)).2.1,
          (remPassF fails n dt eid tgt rest (sentInsert m sent)).2.2)
      else (sent, (deliverF fails eid m tgt).1, false)
    else remPassF fails n dt eid tgt rest sent

/-- One event iteration with failures: a raise skips the rollover step
too. -/
def tickEventF (fails : Int → Bool) (n : DateTime) (ev : Event) :
    Event × List Delivery × Bool :=
  if ev.cancelled then (ev, [], true)
  else if (remPassF fails n ev.datetime ev.id ev.target ev.reminders
      ev.sent).2.2 then
    ((if toMin ev.datetime ≤ toMin n then
        (if recNorm ev.recurrence ≠ "none" then
          { ev with
            datetime := next_occurrence ev.datetime (recNorm ev.recurrence),
            sent := [] }
         else
          { ev with
            cancelled := true,
            sent := (remPassF fails n ev.datetime ev.id ev.target
              ev.reminders ev.sent).1 })
      else
        { ev with sent := (remPassF fails n ev.datetime ev.id ev.target
            ev.reminders ev.sent).1 }),
      (remPassF fails n ev.datetime ev.id ev.target ev.reminders ev.sent).2.1,
      true)
  else (ev,
    (remPassF fails n ev.datetime ev.id ev.target ev.reminders ev.sent).2.1,
    false)

/-- The `for ev in data["events"]` loop with failures: a raise in one event
aborts the processing of all later events. -/
def tickEventsF (fails : Int → Bool) (n : DateTime) :
    List Event → List Event × List Delivery × Bool
  | [] => ([], [], true)
  | ev :: rest =>
    if (tickEventF fails n ev).2.2 then
      ((tickEventF fails n ev).1 :: (tickEventsF fails n rest).1,
        (tickEventF fails n ev).2.1 ++ (tickEventsF fails n rest).2.1,
        (tickEventsF fails n rest).2.2)
    else ((tickEventF fails n ev).1 :: rest,
      (tickEventF fails n ev).2.1, false)

/-- A whole tick with failures, as observed through the persisted snapshot:
the single `try/except` wrapping the tick body (lines 184-225) catches the
raise and logs it AFTER the `save_data` call was skipped, so on any failure
the persisted snapshot is left exactly as loaded. -/
def tickStateF (fails : Int → Bool) (n : DateTime) (s : State) :
    State × List Delivery × Bool :=
  if (tickEventsF fails n s.events).2.2 then
    ({ s with events := (tickEventsF fails n s.events).1 },
      (tickEventsF fails n s.events).2.1, true)
  else (s, (tickEventsF fails n s.events).2.1, false)

-- ### Slash-command handlers for events (`src/bot.py` lines 288-444)

/-- Environment-supplied configuration (`ERINNERUNGS_CHANNEL_ID`); its value
is irrelevant to every claim, so it is modelled as a fixed constant. -/
def ERINNERUNGS_CHANNEL_ID : Int := 0

/-- What a handler sends back to the invoking user (or, for `exn`, an
exception escaping the handler uncaught). -/
inductive Reply where
  | invalidDate
  | exn
  | notFound
  | created (eid : Int)
  | edited
  | cancelledOk
deriving DecidableEq, Repr

/-- `/termin` (lines 291-321): public channel event.  Only the date parse
is guarded by try/except; a `parse_reminders` raise escapes the handler
before `save_data`, leaving the snapshot unchanged.  A negative reminder
offset does NOT raise — it is silently filtered by `parse_reminders`. -/
def termin_cmd (s : State) (userId : Int)
    (datum uhrzeit titel erinnerung wiederholung : String) : State × Reply :=
  match parse_date_time datum uhrzeit with
  | none => (s, Reply.invalidDate)
  | some dt =>
    match parse_reminders erinnerung with
    | Except.error _ => (s, Reply.exn)
    | Except.ok rems =>
      let eid := s.nextEventId
      ({ s with
          nextEventId := eid + 1,
          events := s.events ++
            [⟨eid, pyStripS titel, dt, rems, [], wiederholung, false,
              Target.channel ERINNERUNGS_CHANNEL_ID, userId⟩] },
        Reply.created eid)

/-- `/ptermin` (lines 327-360): DM event to
`sorted({invoker} ∪ persons)`. -/
def ptermin_cmd (s : State) (userId : Int) (persons : List Int)
    (datum uhrzeit titel erinnerung wiederholung : String) : State × Reply :=
  match parse_date_time datum uhrzeit with
  | none => (s, Reply.invalidDate)
  | some dt =>
    match parse_reminders erinnerung with
    | Except.error _ => (s, Reply.exn)
    | Except.ok rems =>
      let eid := s.nextEventId
      let ids := sortedAscDedup (userId :: persons)
      ({ s with
          nextEventId := eid + 1,
          events := s.events ++
            [⟨eid, pyStripS titel, dt, rems, [], wiederholung, false,
              Target.dm ids, userId⟩] },
        Reply.created eid)

/-- `next(e for e in events if int(e["id"]) == tid and not e["cancelled"])`:
index and value of the first match. -/
def findFirst (p : Event → Bool) : List Event → Option (Nat × Event)
  | [] => none
  | e :: es =>
    if p e then some (0, e)
    else (findFirst p es).map (fun r => (r.1 + 1, r.2))

/-- `/termin_absagen` (lines 397-405). -/
def termin_absagen (s : State) (terminId : Int) : State × Reply :=
  match findFirst (fun e => e.id == terminId && !e.cancelled) s.events with
  | none => (s, Reply.notFound)
  | some (i, e) =>
    ({ s with events := s.events.set i { e with cancelled := true } },
      Reply.cancelledOk)

/-- `/termin_edit` (lines 410-444).  Mutations are applied to the in-memory
event in source order (title, reminders+sent-reset, recurrence, then
datetime+sent-reset); `save_data` runs only at line 443, so the early
returns for a missing id, a `parse_reminders` raise, or an unparsable new
date/time leave the persisted snapshot untouched.  When only one of
date/time is supplied the other half defaults to the current value
formatted with `strftime` and re-parsed. -/
def applyTitel (titel : Option String) (ev : Event) : Event :=
  match titel with
  | some t => if pyStripS t ≠ "" then { ev with title := pyStripS t } else ev
  | none => ev

/-- Lines 427-429: `ev["reminders"] = parse_reminders(erinnerung);
ev["sent"] = []` when the parameter was supplied. -/
def applyErinnerung (remsOpt : Option (List Int)) (ev : Event) : Event :=
  match remsOpt with
  | some r => { ev with reminders := r, sent := [] }
  | none => ev

/-- Lines 430-431: `ev["recurrence"] = wiederholung` when supplied. -/
def applyWiederholung (wiederholung : Option String) (ev : Event) : Event :=
  match wiederholung with
  | some w => { ev with recurrence := w }
  | none => ev

/-- The `parse_reminders` call of line 428, which may raise; `Except.ok
none` when the parameter was not supplied. -/
def parseErinnerung (erinnerung : Option String) :
    Except Unit (Option (List Int)) :=
  match erinnerung with
  | some e0 => Except.map some (parse_reminders e0)
  | none => Except.ok Option.none

/-- Lines 433-443 of `termin_edit`: the optional date/time replacement and
the final `save_data`.  `ev` is the in-memory event after the
title/reminder/recurrence edits. -/
def termin_edit_body (s : State) (i : Nat) (ev : Event)
    (datum uhrzeit : Option String) : State × Reply :=
  if datum.isSome || uhrzeit.isSome then
    match parse_date_time (datum.getD (fmtDate ev.datetime))
        (uhrzeit.getD (fmtTime ev.datetime)) with
    | none => (s, Reply.invalidDate)
    | some ndt =>
      ({ s with events :=
          s.events.set i { ev with datetime := ndt, sent := [] } },
        Reply.edited)
  else ({ s with events := s.events.set i ev }, Reply.edited)

def termin_edit (s : State) (terminId : Int)
    (datum uhrzeit titel erinnerung wiederholung : Option String) :
    State × Reply :=
  match findFirst (fun e => e.id == terminId && !e.cancelled) s.events with
  | none => (s, Reply.notFound)
  | some (i, ev) =>
    match parseErinnerung erinnerung with
    | Except.error _ => (s, Reply.exn)
    | Except.ok remsOpt =>
      termin_edit_body s i
        (applyWiederholung wiederholung
          (applyErinnerung remsOpt (applyTitel titel ev)))
        datum uhrzeit

-- ### Reachable snapshots

/-- One state transition: a scheduler tick (at an arbitrary clock reading)
or one of the event command handlers with arbitrary inputs.  (The dashboard
modal creates events of the same shape as `/termin`//`/ptermin` and its
cancel button is `termin_absagen` without the not-yet-cancelled filter;
they add no new shapes of mutation.) -/
inductive Step : State → State → Prop where
  | tick (n : DateTime) (s : State) : Step s (tickState n s).1
  | termin (uid : Int) (datum uhrzeit titel erinnerung wiederholung : String)
      (s : State) :
      Step s (termin_cmd s uid datum uhrzeit titel erinnerung wiederholung).1
  | ptermin (uid : Int) (persons : List Int)
      (datum uhrzeit titel erinnerung wiederholung : String) (s : State) :
      Step s (ptermin_cmd s uid persons datum uhrzeit titel erinnerung
        wiederholung).1
  | absagen (tid : Int) (s : State) : Step s (termin_absagen s tid).1
  | edit (tid : Int) (datum uhrzeit titel erinnerung wiederholung : Option String)
      (s : State) :
      Step s (termin_edit s tid datum uhrzeit titel erinnerung wiederholung).1

/-- Snapshots reachable from the empty store. -/
inductive Reachable : State → Prop where
  | init : Reachable initState
  | step {s s' : State} : Reachable s → Step s s' → Reachable s'

-- ### Membership lemmas for the sorted-set representation

theorem mem_insertDesc (a m : Int) (l : List Int) :
    a ∈ insertDesc m l ↔ a = m ∨ a ∈ l := by
  induction l with
  | nil => simp [insertDesc]
  | cons x xs ih =>
    simp only [insertDesc]
    split
    · simp
    · simp only [List.mem_cons, ih]
      tauto

theorem mem_sortDesc (a : Int) (l : List Int) :
    a ∈ sortDesc l ↔ a ∈ l := by
  induction l with
  | nil => simp [sortDesc]
  | cons x xs ih =>
    simp only [sortDesc, mem_insertDesc, ih, List.mem_cons]

theorem mem_sortedDescDedup (a : Int) (l : List Int) :
    a ∈ sortedDescDedup l ↔ a ∈ l := by
  simp [sortedDescDedup, mem_sortDesc, List.mem_dedup]

theorem mem_insertAsc (a m : Int) (l : List Int) :
    a ∈ insertAsc m l ↔ a = m ∨ a ∈ l := by
  induction l with
  | nil => simp [insertAsc]
  | cons x xs ih =>
    simp only [insertAsc]
    split
    · simp
    · simp only [List.mem_cons, ih]
      tauto

theorem mem_sortAsc (a : Int) (l : List Int) :
    a ∈ sortAsc l ↔ a ∈ l := by
  induction l with
  | nil => simp [sortAsc]
  | cons x xs ih =>
    simp only [sortAsc, mem_insertAsc, ih, List.mem_cons]

theorem mem_sentInsert (a m : Int) (sent : List Int) :
    a ∈ sentInsert m sent ↔ a = m ∨ a ∈ sent := by
  simp [sentInsert, mem_sortedDescDedup]

-- ### Behaviour of the reminder pass

/-- Each offset value is delivered exactly once per pass, and exactly when
it is listed, unsent and inside the window. -/
theorem remindersPass_count (n dt : DateTime) (a : Int) :
    ∀ (rems sent : List Int),
      (remindersPass n dt rems sent).2.count a =
        (if a ∈ rems ∧ a ∉ sent ∧ dueB n dt a = true then 1 else 0) := by
  intro rems
  induction rems with
  | nil => intro sent; simp [remindersPass]
  | cons m rest ih =>
    intro sent
    simp only [remindersPass]
    by_cases hm : m ∈ sent
    · rw [if_pos hm, ih]
      by_cases ha : a = m
      · subst ha
        simp [hm]
      · have heq : ((a ∈ m :: rest) ∧ a ∉ sent ∧ dueB n dt a = true) ↔
            (a ∈ rest ∧ a ∉ sent ∧ dueB n dt a = true) := by
          simp only [List.mem_cons]
          tauto
        rw [if_congr heq rfl rfl]
    · rw [if_neg hm]
      by_cases hdue : dueB n dt m = true
      · rw [if_pos hdue]
        simp only [List.count_cons, ih]
        by_cases ha : a = m
        · subst ha
          have h1 : a ∈ sentInsert a sent :=
            (mem_sentInsert a a sent).mpr (Or.inl rfl)
          rw [if_neg (fun hc => hc.2.1 h1)]
          simp [hm, hdue]
        · have hbeq : (m == a) = false := by
            simp only [beq_eq_false_iff_ne, ne_eq]
            exact fun hc => ha hc.symm
          rw [hbeq]
          have hins : a ∉ sentInsert m sent ↔ a ∉ sent := by
            rw [mem_sentInsert]; tauto
          have heq : (a ∈ rest ∧ a ∉ sentInsert m sent ∧ dueB n dt a = true) ↔
              ((a ∈ m :: rest) ∧ a ∉ sent ∧ dueB n dt a = true) := by
            simp only [List.mem_cons, hins]
            tauto
          rw [if_congr heq rfl rfl]
          simp
      · rw [if_neg hdue, ih]
        by_cases ha : a = m
        · subst ha
          simp [hdue]
        · have heq : ((a ∈ m :: rest) ∧ a ∉ sent ∧ dueB n dt a = true) ↔
              (a ∈ rest ∧ a ∉ sent ∧ dueB n dt a = true) := by
            simp only [List.mem_cons]
            tauto
          rw [if_congr heq rfl rfl]

/-- Offsets delivered by the pass: listed, unsent, in the window. -/
theorem remindersPass_mem (n dt : DateTime) (a : Int) (rems sent : List Int) :
    a ∈ (remindersPass n dt rems sent).2 ↔
      (a ∈ rems ∧ a ∉ sent ∧ dueB n dt a = true) := by
  have h := remindersPass_count n dt a rems sent
  constructor
  · intro hm
    by_contra hc
    rw [if_neg hc] at h
    have h2 : 0 < (remindersPass n dt rems sent).2.count a :=
      List.count_pos_iff.mpr hm
    omega
  · intro hc
    rw [if_pos hc] at h
    exact List.count_pos_iff.mp (by omega)

/-- The updated `sent` list holds the old offsets plus the delivered
ones. -/
theorem remindersPass_sent (n dt : DateTime) (a : Int) :
    ∀ (rems sent : List Int),
      (a ∈ (remindersPass n dt rems sent).1 ↔
        a ∈ sent ∨ a ∈ (remindersPass n dt rems sent).2) := by
  intro rems
  induction rems with
  | nil => intro sent; simp [remindersPass]
  | cons m rest ih =>
    intro sent
    simp only [remindersPass]
    by_cases hm : m ∈ sent
    · rw [if_pos hm]
      exact ih sent
    · rw [if_neg hm]
      by_cases hdue : dueB n dt m = true
      · rw [if_pos hdue]
        simp only [List.mem_cons, ih, mem_sentInsert]
        tauto
      · rw [if_neg hdue]
        exact ih sent

-- ### Tick-level facts

theorem tickEvent_of_cancelled (n : DateTime) (ev : Event)
    (h : ev.cancelled = true) : tickEvent n ev = (ev, []) := by
  simp [tickEvent, h]

/-- The deliveries of one event iteration are exactly those of its
reminder pass. -/
theorem tickEvent_deliveries (n : DateTime) (ev : Event)
    (h : ev.cancelled = false) :
    (tickEvent n ev).2 = (remindersPass n ev.datetime ev.reminders ev.sent).2 := by
  simp only [tickEvent, h, Bool.false_eq_true, if_false]
  split
  · split <;> rfl
  · rfl

/-- The reminders list is never changed by a tick. -/
theorem tickEvent_reminders (n : DateTime) (ev : Event) :
    (tickEvent n ev).1.reminders = ev.reminders := by
  simp only [tickEvent]
  split
  · rfl
  · split
    · split <;> rfl
    · rfl

/-- `sentOffsets ⊆ reminderOffsets` is preserved by one event iteration. -/
theorem tickEvent_inv (n : DateTime) (ev : Event)
    (h : ∀ m, m ∈ ev.sent → m ∈ ev.reminders) :
    ∀ m, m ∈ (tickEvent n ev).1.sent → m ∈ (tickEvent n ev).1.reminders := by
  intro m
  rw [tickEvent_reminders]
  simp only [tickEvent]
  split
  · exact h m
  · next hc =>
    have hmem : ∀ x, x ∈ (remindersPass n ev.datetime ev.reminders ev.sent).1 →
        x ∈ ev.reminders := by
      intro x hx
      rcases (remindersPass_sent n ev.datetime x ev.reminders ev.sent).mp hx with
        hx' | hx'
      · exact h x hx'
      · exact ((remindersPass_mem n ev.datetime x ev.reminders ev.sent).mp hx').1
    split
    · split
      · intro hm
        simp only at hm
        exact absurd hm (List.not_mem_nil m)
      · exact hmem m
    · exact hmem m

-- ### The `sentOffsets ⊆ reminderOffsets` invariant

/-- Per-event form of the invariant. -/
def EventInv (ev : Event) : Prop :=
  ∀ m, m ∈ ev.sent → m ∈ ev.reminders

/-- Snapshot form of the invariant. -/
def StateInv (s : State) : Prop :=
  ∀ ev ∈ s.events, EventInv ev

theorem findFirst_some {p : Event → Bool} :
    ∀ {l : List Event} {i : Nat} {e : Event},
      findFirst p l = some (i, e) → e ∈ l ∧ p e = true := by
  intro l
  induction l with
  | nil => intro i e h; simp [findFirst] at h
  | cons x xs ih =>
    intro i e h
    simp only [findFirst] at h
    split at h
    · next hp =>
      injection h with hpair
      injection hpair with h1 h2
      subst h1
      subst h2
      exact ⟨List.mem_cons_self x xs, hp⟩
    · cases hf : findFirst p xs with
      | none => rw [hf] at h; exact Option.noConfusion h
      | some r =>
        obtain ⟨j, e1⟩ := r
        rw [hf] at h
        have h' : some (j + 1, e1) = some (i, e) := h
        injection h' with hpair
        injection hpair with h1 h2
        subst h1
        subst h2
        obtain ⟨hm, hp2⟩ := ih hf
        exact ⟨List.mem_cons_of_mem x hm, hp2⟩

theorem stateInv_tick (n : DateTime) (s : State) (h : StateInv s) :
    StateInv (tickState n s).1 := by
  intro ev' hmem
  simp only [tickState, List.mem_map] at hmem
  obtain ⟨ev, hev, rfl⟩ := hmem
  exact tickEvent_inv n ev (h ev hev)

theorem stateInv_termin (s : State) (uid : Int)
    (datum uhrzeit titel erinnerung wiederholung : String) (h : StateInv s) :
    StateInv (termin_cmd s uid datum uhrzeit titel erinnerung wiederholung).1 := by
  unfold termin_cmd
  cases parse_date_time datum uhrzeit with
  | none => exact h
  | some dt =>
    cases parse_reminders erinnerung with
    | error e => exact h
    | ok rems =>
      intro ev hmem
      simp only [List.mem_append, List.mem_singleton] at hmem
      rcases hmem with hmem | rfl
      · exact h ev hmem
      · intro m hm
        exact absurd hm (List.not_mem_nil m)

theorem stateInv_ptermin (s : State) (uid : Int) (persons : List Int)
    (datum uhrzeit titel erinnerung wiederholung : String) (h : StateInv s) :
    StateInv (ptermin_cmd s uid persons datum uhrzeit titel erinnerung
      wiederholung).1 := by
  unfold ptermin_cmd
  cases parse_date_time datum uhrzeit with
  | none => exact h
  | some dt =>
    cases parse_reminders erinnerung with
    | error e => exact h
    | ok rems =>
      intro ev hmem
      simp only [List.mem_append, List.mem_singleton] at hmem
      rcases hmem with hmem | rfl
      · exact h ev hmem
      · intro m hm
        exact absurd hm (List.not_mem_nil m)

theorem stateInv_absagen (s : State) (tid : Int) (h : StateInv s) :
    StateInv (termin_absagen s tid).1 := by
  unfold termin_absagen
  cases hf : findFirst (fun e => e.id == tid && !e.cancelled) s.events with
  | none => exact h
  | some r =>
    obtain ⟨i, e⟩ := r
    intro ev hmem
    rcases List.mem_or_eq_of_mem_set hmem with hmem | rfl
    · exact h ev hmem
    · exact h e (findFirst_some hf).1

theorem applyTitel_eventInv (titel : Option String) (ev : Event)
    (h : EventInv ev) : EventInv (applyTitel titel ev) := by
  cases titel with
  | none => exact h
  | some t =>
    simp only [applyTitel]
    split
    · intro m hm; exact h m hm
    · exact h

theorem applyErinnerung_eventInv (remsOpt : Option (List Int)) (ev : Event)
    (h : EventInv ev) : EventInv (applyErinnerung remsOpt ev) := by
  cases remsOpt with
  | none => exact h
  | some r =>
    intro m hm
    exact absurd hm (List.not_mem_nil m)

theorem applyWiederholung_eventInv (w : Option String) (ev : Event)
    (h : EventInv ev) : EventInv (applyWiederholung w ev) := by
  cases w with
  | none => exact h
  | some w' => intro m hm; exact h m hm

theorem stateInv_edit_body (s : State) (i : Nat) (ev : Event)
    (datum uhrzeit : Option String) (h : StateInv s) (hev : EventInv ev) :
    StateInv (termin_edit_body s i ev datum uhrzeit).1 := by
  unfold termin_edit_body
  by_cases hdt : (datum.isSome || uhrzeit.isSome) = true
  · rw [if_pos hdt]
    cases parse_date_time (datum.getD (fmtDate ev.datetime))
        (uhrzeit.getD (fmtTime ev.datetime)) with
    | none => exact h
    | some ndt =>
      intro e1 hmem
      rcases List.mem_or_eq_of_mem_set hmem with hmem | rfl
      · exact h e1 hmem
      · intro m hm
        exact absurd hm (List.not_mem_nil m)
  · rw [if_neg hdt]
    intro e1 hmem
    rcases List.mem_or_eq_of_mem_set hmem with hmem | rfl
    · exact h e1 hmem
    · exact hev

theorem stateInv_edit (s : State) (tid : Int)
    (datum uhrzeit titel erinnerung wiederholung : Option String)
    (h : StateInv s) :
    StateInv (termin_edit s tid datum uhrzeit titel erinnerung
      wiederholung).1 := by
  unfold termin_edit
  cases hf : findFirst (fun e => e.id == tid && !e.cancelled) s.events with
  | none => exact h
  | some r =>
    obtain ⟨i, ev⟩ := r
    have hev : EventInv ev := h ev (findFirst_some hf).1
    cases parseErinnerung erinnerung with
    | error e0 => exact h
    | ok remsOpt =>
      exact stateInv_edit_body s i _ datum uhrzeit h
        (applyWiederholung_eventInv _ _ (applyErinnerung_eventInv _ _
          (applyTitel_eventInv _ _ hev)))

theorem stateInv_step {s s' : State} (h : StateInv s) (hs : Step s s') :
    StateInv s' := by
  cases hs with
  | tick n s => exact stateInv_tick n s h
  | termin uid datum uhrzeit titel erinnerung wiederholung s =>
    exact stateInv_termin s uid datum uhrzeit titel erinnerung wiederholung h
  | ptermin uid persons datum uhrzeit titel erinnerung wiederholung s =>
    exact stateInv_ptermin s uid persons datum uhrzeit titel erinnerung
      wiederholung h
  | absagen tid s => exact stateInv_absagen s tid h
  | edit tid datum uhrzeit titel erinnerung wiederholung s =>
    exact stateInv_edit s tid datum uhrzeit titel erinnerung wiederholung h

theorem reachable_stateInv {s : State} (h : Reachable s) : StateInv s := by
  induction h with
  | init => intro ev hmem; exact absurd hmem (List.not_mem_nil ev)
  | step _ hs ih => exact stateInv_step ih hs

-- ### The three outcomes of one event iteration

theorem tickEvent_fst_noroll (n : DateTime) (ev : Event)
    (hc : ev.cancelled = false) (h2 : ¬ toMin ev.datetime ≤ toMin n) :
    (tickEvent n ev).1 =
      { ev with sent := (remindersPass n ev.datetime ev.reminders ev.sent).1 } := by
  simp only [tickEvent, hc, Bool.false_eq_true, if_false]
  rw [if_neg h2]

theorem tickEvent_fst_cancel (n : DateTime) (ev : Event)
    (hc : ev.cancelled = false) (h2 : toMin ev.datetime ≤ toMin n)
    (h3 : recNorm ev.recurrence = "none") :
    (tickEvent n ev).1 =
      { ev with
        cancelled := true,
        sent := (remindersPass n ev.datetime ev.reminders ev.sent).1 } := by
  simp only [tickEvent, hc, Bool.false_eq_true, if_false]
  rw [if_pos h2, if_neg (by simp [h3])]

theorem tickEvent_fst_roll (n : DateTime) (ev : Event)
    (hc : ev.cancelled = false) (h2 : toMin ev.datetime ≤ toMin n)
    (h3 : recNorm ev.recurrence ≠ "none") :
    (tickEvent n ev).1 =
      { ev with
        datetime := next_occurrence ev.datetime (recNorm ev.recurrence),
        sent := [] } := by
  simp only [tickEvent, hc, Bool.false_eq_true, if_false]
  rw [if_pos h2, if_pos (by simp [h3])]

-- ### Field preservation of the `termin_edit` mutation steps

theorem applyTitel_datetime (titel : Option String) (ev : Event) :
    (applyTitel titel ev).datetime = ev.datetime := by
  cases titel with
  | none => rfl
  | some t =>
    simp only [applyTitel]
    split <;> rfl

theorem applyErinnerung_datetime (remsOpt : Option (List Int)) (ev : Event) :
    (applyErinnerung remsOpt ev).datetime = ev.datetime := by
  cases remsOpt <;> rfl

theorem applyWiederholung_datetime (w : Option String) (ev : Event) :
    (applyWiederholung w ev).datetime = ev.datetime := by
  cases w <;> rfl

-- ### Claim theorems

/-- C5: For every Task and every actor, the visibility predicate returns
false whenever the task is deleted; otherwise true for scope `public`; for
scope `private`, true iff `createdBy` equals the actor's id; for scope
`user`, true iff `assignedUser` or `createdBy` equals the actor's id; for
scope `role`, true iff `assignedRole` is in the actor's role set or
`createdBy` equals the actor's id. -/
theorem todo_is_relevant_spec (todo : Todo) (member : Member) :
    (todo.deleted = true → todo_is_relevant todo member = false) ∧
    (todo.deleted = false →
      ((todo.scope = "public" → todo_is_relevant todo member = true) ∧
       (todo.scope = "private" →
         (todo_is_relevant todo member = true ↔
           todo.createdBy = member.id)) ∧
       (todo.scope = "user" →
         (todo_is_relevant todo member = true ↔
           (todo.assignedUser = member.id ∨ todo.createdBy = member.id))) ∧
       (todo.scope = "role" →
         (todo_is_relevant todo member = true ↔
           (todo.assignedRole ∈ member.roles ∨
             todo.createdBy = member.id))))) := by
  refine ⟨fun hd => ?_, fun hd => ⟨fun hs => ?_, fun hs => ?_, fun hs => ?_,
    fun hs => ?_⟩⟩
  · simp [todo_is_relevant, hd]
  · simp [todo_is_relevant, hd, hs]
  · simp [todo_is_relevant, hd, hs]
  · simp [todo_is_relevant, hd, hs]
  · simp [todo_is_relevant, hd, hs, user_role_ids]

/-- C5 witness: a `user`-scoped task assigned to actor 2 (creator 1) is
visible to actor 2, a `role`-scoped task is visible to a role holder, and a
deleted task is visible to nobody. -/
theorem todo_is_relevant_spec_witness :
    todo_is_relevant ⟨1, "t", "user", 2, 0, 1, false, false⟩ ⟨2, [], false⟩ =
      true ∧
    todo_is_relevant ⟨2, "t", "role", 0, 9, 1, false, false⟩ ⟨3, [9], false⟩ =
      true ∧
    todo_is_relevant ⟨3, "t", "public", 0, 0, 1, false, true⟩ ⟨1, [], false⟩ =
      false :=
  ⟨((todo_is_relevant_spec ⟨1, "t", "user", 2, 0, 1, false, false⟩
      ⟨2, [], false⟩).2 rfl).2.2.1 rfl |>.mpr (Or.inl rfl),
   ((todo_is_relevant_spec ⟨2, "t", "role", 0, 9, 1, false, false⟩
      ⟨3, [9], false⟩).2 rfl).2.2.2 rfl |>.mpr
        (Or.inl (List.mem_singleton.mpr rfl)),
   (todo_is_relevant_spec ⟨3, "t", "public", 0, 0, 1, false, true⟩
      ⟨1, [], false⟩).1 rfl⟩

/-- The `can_modify_todo` decision as a proposition. -/
theorem can_modify_iff (todo : Todo) (member : Member) :
    can_modify_todo todo member = true ↔
      (todo.createdBy = member.id ∨
        (todo.scope = "user" ∧ todo.assignedUser = member.id) ∨
        member.manageGuild = true) := by
  unfold can_modify_todo
  constructor
  · intro h
    split at h
    · next h1 => exact Or.inl (by simpa using h1)
    · split at h
      · next h2 =>
        have h2' := h2
        simp only [Bool.and_eq_true, decide_eq_true_eq, beq_iff_eq] at h2'
        exact Or.inr (Or.inl h2')
      · split at h
        · next h3 => exact Or.inr (Or.inr h3)
        · exact absurd h (by simp)
  · intro h
    rcases h with h | ⟨h1, h2⟩ | h
    · rw [if_pos (by simp [h])]
    · by_cases hc1 : (todo.createdBy == member.id) = true
      · rw [if_pos hc1]
      · rw [if_neg hc1, if_pos (by simp [h1, h2])]
    · by_cases hc1 : (todo.createdBy == member.id) = true
      · rw [if_pos hc1]
      · rw [if_neg hc1]
        by_cases hc2 :
            (decide (todo.scope = "user") && todo.assignedUser == member.id) = true
        · rw [if_pos hc2]
        · rw [if_neg hc2, if_pos h]

/-- C6: the modification predicate is true iff the actor created the task,
or the task is `user`-scoped and assigned to the actor, or the actor has
the elevated (`manage_guild`) permission; in particular a mere role holder
of a `role`-scoped task (neither creator nor elevated) cannot modify it. -/
theorem can_modify_todo_spec (todo : Todo) (member : Member) :
    (can_modify_todo todo member = true ↔
      (todo.createdBy = member.id ∨
        (todo.scope = "user" ∧ todo.assignedUser = member.id) ∨
        member.manageGuild = true)) ∧
    (todo.scope = "role" → todo.createdBy ≠ member.id →
      member.manageGuild = false →
      can_modify_todo todo member = false) := by
  refine ⟨can_modify_iff todo member, fun hs hc hm => ?_⟩
  cases hcm : can_modify_todo todo member with
  | false => rfl
  | true =>
    exfalso
    rcases (can_modify_iff todo member).mp hcm with h | ⟨h, _⟩ | h
    · exact hc h
    · rw [hs] at h
      exact absurd h (by decide)
    · rw [hm] at h
      exact absurd h (by decide)

/-- C6 witness: the role holder 3 of a `role`-scoped task created by 1
cannot modify it, while the creator can. -/
theorem can_modify_todo_spec_witness :
    can_modify_todo ⟨1, "t", "role", 0, 9, 1, false, false⟩ ⟨3, [9], false⟩ =
      false ∧
    can_modify_todo ⟨1, "t", "role", 0, 9, 1, false, false⟩ ⟨1, [9], false⟩ =
      true :=
  ⟨(can_modify_todo_spec ⟨1, "t", "role", 0, 9, 1, false, false⟩
      ⟨3, [9], false⟩).2 rfl (by decide) rfl,
   (can_modify_todo_spec ⟨1, "t", "role", 0, 9, 1, false, false⟩
      ⟨1, [9], false⟩).1.mpr (Or.inl rfl)⟩

/-- C2: in one scheduler tick over a non-cancelled event, an offset `m` is
delivered iff it is listed in `reminders`, not already in `sent`, and the
clock satisfies `when - m minutes ≤ now < when + 24h`; each delivered
offset is added to the `sent` set of the reminder pass (which afterwards
holds exactly the old offsets plus the delivered ones). -/
theorem tick_delivers_iff (n : DateTime) (ev : Event)
    (hc : ev.cancelled = false) :
    (tickEvent n ev).2 =
      (remindersPass n ev.datetime ev.reminders ev.sent).2 ∧
    (∀ m : Int, m ∈ (tickEvent n ev).2 ↔
      (m ∈ ev.reminders ∧ m ∉ ev.sent ∧ dueB n ev.datetime m = true)) ∧
    (∀ m : Int,
      m ∈ (remindersPass n ev.datetime ev.reminders ev.sent).1 ↔
        (m ∈ ev.sent ∨ m ∈ (tickEvent n ev).2)) :=
  ⟨tickEvent_deliveries n ev hc,
   fun m => by
     rw [tickEvent_deliveries n ev hc]
     exact remindersPass_mem n ev.datetime m ev.reminders ev.sent,
   fun m => by
     rw [tickEvent_deliveries n ev hc]
     exact remindersPass_sent n ev.datetime m ev.reminders ev.sent⟩

/-- C2 witness: an event at 2026-02-08 12:00 with offsets `{30, 10}` and
`10` already sent, observed at 11:55: offset 30 is delivered (11:55 is
inside its window), offset 10 is not (already sent). -/
theorem tick_delivers_iff_witness :
    (30 : Int) ∈ (tickEvent ⟨2026, 2, 8, 715⟩
      ⟨1, "t", ⟨2026, 2, 8, 720⟩, [30, 10], [10], "none", false,
        Target.channel 0, 7⟩).2 ∧
    (10 : Int) ∉ (tickEvent ⟨2026, 2, 8, 715⟩
      ⟨1, "t", ⟨2026, 2, 8, 720⟩, [30, 10], [10], "none", false,
        Target.channel 0, 7⟩).2 :=
  ⟨((tick_delivers_iff ⟨2026, 2, 8, 715⟩
      ⟨1, "t", ⟨2026, 2, 8, 720⟩, [30, 10], [10], "none", false,
        Target.channel 0, 7⟩ rfl).2.1 30).mpr (by decide),
   fun hmem =>
     by exact absurd (((tick_delivers_iff ⟨2026, 2, 8, 715⟩
       ⟨1, "t", ⟨2026, 2, 8, 720⟩, [30, 10], [10], "none", false,
         Target.channel 0, 7⟩ rfl).2.1 10).mp hmem) (by decide)⟩

/-- C3: in one tick over a non-cancelled event whose `when` has passed
(`now ≥ when`): with a recurrence other than `none` the datetime is
replaced by `next_occurrence` of the event's own `when` (daily = +24h,
weekly = +7·24h, monthly = `add_month`), `sent` is reset to `[]` and the
event stays un-cancelled; with recurrence `none` the event is cancelled. -/
theorem tick_rollover (n : DateTime) (ev : Event)
    (hc : ev.cancelled = false) (hv : ev.datetime.ValidDT)
    (hdue : toMin ev.datetime ≤ toMin n) :
    (recNorm ev.recurrence ≠ "none" →
      (tickEvent n ev).1.datetime =
        next_occurrence ev.datetime (recNorm ev.recurrence) ∧
      (tickEvent n ev).1.sent = [] ∧
      (tickEvent n ev).1.cancelled = false) ∧
    (recNorm ev.recurrence = "none" →
      (tickEvent n ev).1.cancelled = true ∧
      (tickEvent n ev).1.datetime = ev.datetime) ∧
    toMin (next_occurrence ev.datetime "daily") = toMin ev.datetime + 1440 ∧
    toMin (next_occurrence ev.datetime "weekly") =
      toMin ev.datetime + 7 * 1440 ∧
    next_occurrence ev.datetime "monthly" = add_month ev.datetime := by
  refine ⟨fun hrec => ?_, fun hrec => ?_, ?_, ?_, ?_⟩
  · rw [tickEvent_fst_roll n ev hc hdue hrec]
    exact ⟨rfl, rfl, hc⟩
  · rw [tickEvent_fst_cancel n ev hc hdue hrec]
    exact ⟨rfl, rfl⟩
  · have hd : next_occurrence ev.datetime "daily" = addDays ev.datetime 1 := by
      unfold next_occurrence
      rw [show recNorm "daily" = "daily" from by decide]
      simp
    rw [hd, toMin_addDays hv 1]
  · have hw : next_occurrence ev.datetime "weekly" = addDays ev.datetime 7 := by
      unfold next_occurrence
      rw [show recNorm "weekly" = "weekly" from by decide]
      simp
    rw [hw, toMin_addDays hv 7]
  · unfold next_occurrence
    rw [show recNorm "monthly" = "monthly" from by decide]
    simp

/-- C3 witness: a daily event at 2026-02-08 12:00 seen at 12:05 rolls over
to 2026-02-09 12:00 with `sent` reset and `cancelled` still false. -/
theorem tick_rollover_witness :
    (tickEvent ⟨2026, 2, 8, 725⟩
      ⟨1, "t", ⟨2026, 2, 8, 720⟩, [30], [30], "daily", false,
        Target.channel 0, 7⟩).1.datetime =
      next_occurrence ⟨2026, 2, 8, 720⟩ (recNorm "daily") ∧
    (tickEvent ⟨2026, 2, 8, 725⟩
      ⟨1, "t", ⟨2026, 2, 8, 720⟩, [30], [30], "daily", false,
        Target.channel 0, 7⟩).1.sent = [] ∧
    (tickEvent ⟨2026, 2, 8, 725⟩
      ⟨1, "t", ⟨2026, 2, 8, 720⟩, [30], [30], "daily", false,
        Target.channel 0, 7⟩).1.cancelled = false :=
  (tick_rollover ⟨2026, 2, 8, 725⟩
    ⟨1, "t", ⟨2026, 2, 8, 720⟩, [30], [30], "daily", false,
      Target.channel 0, 7⟩ rfl (by decide) (by decide)).1 (by decide)

/-- C4: `add_month` advances the calendar month by one, clamps the
day-of-month to the last valid day of the target month and keeps the time
of day; in particular every instant on 2024-01-31 maps to 2024-02-29 (leap
year) and every instant on 2023-01-31 maps to 2023-02-28. -/
theorem add_month_clamps :
    (∀ tod : Nat, tod < 1440 →
      add_month ⟨2024, 1, 31, tod⟩ = ⟨2024, 2, 29, tod⟩) ∧
    (∀ tod : Nat, tod < 1440 →
      add_month ⟨2023, 1, 31, tod⟩ = ⟨2023, 2, 28, tod⟩) ∧
    (∀ dt : DateTime, dt.ValidDT →
      add_month dt =
        ⟨(if dt.month = 12 then dt.year + 1 else dt.year),
         (if dt.month = 12 then 1 else dt.month + 1),
         min dt.day
           (daysInMonth (if dt.month = 12 then dt.year + 1 else dt.year)
             (if dt.month = 12 then 1 else dt.month + 1)),
         dt.tod⟩) := by
  refine ⟨fun tod _ => ?_, fun tod _ => ?_, fun dt hv => ?_⟩
  · show add_month ⟨2024, 1, 31, tod⟩ = ⟨2024, 2, 29, tod⟩
    have h29 : daysInMonth 2024 2 = 29 := by decide
    simp [add_month, prevDay, h29]
  · have h28 : daysInMonth 2023 2 = 28 := by decide
    simp [add_month, prevDay, h28]
  · obtain ⟨y, m, d, tod⟩ := dt
    obtain ⟨hy, hm1, hm2, hd1, hd2, ht⟩ := hv
    simp only at hy hm1 hm2 hd1 hd2 ht
    interval_cases m <;>
      simp [add_month, prevDay, daysInMonth]

/-- C4 witness: the clamp at noon on 2024-01-31, and the general rule
evaluated at 2023-11-30 23:59 (target month December, no clamp needed). -/
theorem add_month_clamps_witness :
    add_month ⟨2024, 1, 31, 720⟩ = ⟨2024, 2, 29, 720⟩ ∧
    add_month ⟨2023, 11, 30, 1439⟩ =
      ⟨2023, 12, min 30 (daysInMonth 2023 12), 1439⟩ :=
  ⟨add_month_clamps.1 720 (by decide),
   add_month_clamps.2.2 ⟨2023, 11, 30, 1439⟩ (by decide)⟩

/-- C9: two consecutive ticks at the same clock reading deliver each due
offset of an event exactly once for the occurrence current at the first
tick.  The hypothesis `toMin n < toMin ev.datetime ∨ recNorm ev.recurrence
= "none"` says this occurrence is not replaced by a rollover during the
first tick (a rollover starts a new occurrence with its own deliveries,
which both the spec and the claim scope out via "for the same
occurrence"). -/
theorem ticks_idempotent (n : DateTime) (ev : Event)
    (hc : ev.cancelled = false)
    (hocc : toMin n < toMin ev.datetime ∨ recNorm ev.recurrence = "none") :
    (tickEvent n (tickEvent n ev).1).2 = [] ∧
    (∀ m : Int,
      ((tickEvent n ev).2 ++ (tickEvent n (tickEvent n ev).1).2).count m =
        (if m ∈ ev.reminders ∧ m ∉ ev.sent ∧ dueB n ev.datetime m = true
         then 1 else 0)) := by
  have hsecond : (tickEvent n (tickEvent n ev).1).2 = [] := by
    by_cases hroll : toMin ev.datetime ≤ toMin n
    · have hrec : recNorm ev.recurrence = "none" := by
        rcases hocc with h | h
        · omega
        · exact h
      rw [tickEvent_fst_cancel n ev hc hroll hrec]
      have h2 := tickEvent_of_cancelled n
        { ev with
          cancelled := true,
          sent := (remindersPass n ev.datetime ev.reminders ev.sent).1 } rfl
      rw [h2]
    · rw [tickEvent_fst_noroll n ev hc hroll]
      set ev1 : Event :=
        { ev with sent := (remindersPass n ev.datetime ev.reminders ev.sent).1 }
        with hev1
      have hc1 : ev1.cancelled = false := hc
      rw [tickEvent_deliveries n ev1 hc1]
      rw [List.eq_nil_iff_forall_not_mem]
      intro m hm
      have hm' := (remindersPass_mem n ev1.datetime m ev1.reminders
        ev1.sent).mp hm
      have hdt1 : ev1.datetime = ev.datetime := rfl
      have hrm1 : ev1.reminders = ev.reminders := rfl
      have hst1 : ev1.sent =
          (remindersPass n ev.datetime ev.reminders ev.sent).1 := rfl
      rw [hdt1, hrm1, hst1] at hm'
      obtain ⟨hmr, hms, hmd⟩ := hm'
      rw [remindersPass_sent n ev.datetime m ev.reminders ev.sent] at hms
      exact hms (Or.inr ((remindersPass_mem n ev.datetime m ev.reminders
        ev.sent).mpr ⟨hmr, fun hsent => hms (Or.inl hsent), hmd⟩))
  refine ⟨hsecond, fun m => ?_⟩
  rw [List.count_append, hsecond, List.count_nil,
    tickEvent_deliveries n ev hc,
    remindersPass_count n ev.datetime m ev.reminders ev.sent]
  omega

/-- C9 witness: an event at 2026-02-08 12:00 with offset 30, clock at
11:55: the first tick delivers offset 30 exactly once, the second tick at
the same clock delivers nothing. -/
theorem ticks_idempotent_witness :
    (tickEvent ⟨2026, 2, 8, 715⟩ (tickEvent ⟨2026, 2, 8, 715⟩
      ⟨1, "t", ⟨2026, 2, 8, 720⟩, [30], [], "none", false,
        Target.channel 0, 7⟩).1).2 = [] ∧
    ((tickEvent ⟨2026, 2, 8, 715⟩
      ⟨1, "t", ⟨2026, 2, 8, 720⟩, [30], [], "none", false,
        Target.channel 0, 7⟩).2 ++
     (tickEvent ⟨2026, 2, 8, 715⟩ (tickEvent ⟨2026, 2, 8, 715⟩
      ⟨1, "t", ⟨2026, 2, 8, 720⟩, [30], [], "none", false,
        Target.channel 0, 7⟩).1).2).count 30 = 1 := by
  have h := ticks_idempotent ⟨2026, 2, 8, 715⟩
    ⟨1, "t", ⟨2026, 2, 8, 720⟩, [30], [], "none", false,
      Target.channel 0, 7⟩ rfl (Or.inl (by decide))
  refine ⟨h.1, ?_⟩
  rw [h.2 30, if_pos (by refine ⟨by decide, by decide, by decide⟩)]

/-- C1: in every snapshot reachable from the empty store by scheduler
ticks and the create/edit/cancel command handlers, every event's
`sentOffsets` is a subset of its `reminderOffsets`. -/
theorem reachable_sent_subset_reminders {s : State} (h : Reachable s) :
    ∀ ev ∈ s.events, ∀ m ∈ ev.sent, m ∈ ev.reminders := by
  intro ev hev m hm
  exact reachable_stateInv h ev hev m hm

/-- C1 witness: create an event (`/termin`) and run a tick that delivers
its offset; in the resulting reachable snapshot every `sent` entry is among
the `reminders`, and concretely the event's `sent` is `[30] ⊆ [30]`. -/
theorem reachable_sent_subset_reminders_witness :
    (∀ ev ∈ (tickState ⟨2026, 2, 8, 715⟩
        (termin_cmd initState 7 "08.02.2026" "12:00" "T" "30" "none").1).1.events,
      ∀ m ∈ ev.sent, m ∈ ev.reminders) ∧
    ((tickState ⟨2026, 2, 8, 715⟩
        (termin_cmd initState 7 "08.02.2026" "12:00" "T" "30" "none").1).1.events.map
      (fun ev => ev.sent)) = [[30]] :=
  ⟨reachable_sent_subset_reminders
    (Reachable.step
      (Reachable.step Reachable.init
        (Step.termin 7 "08.02.2026" "12:00" "T" "30" "none" initState))
      (Step.tick ⟨2026, 2, 8, 715⟩ _)),
   by decide⟩

/-- Every offset list `parse_reminders` accepts contains only non-negative
values — line 69 filters with `x >= 0` instead of rejecting. -/
theorem parse_reminders_nonneg (rem_str : String) (rems : List Int)
    (h : parse_reminders rem_str = Except.ok rems) :
    ∀ m ∈ rems, 0 ≤ m := by
  intro m hm
  unfold parse_reminders at h
  split at h
  · cases h
    exact absurd hm (List.not_mem_nil m)
  · split at h
    · next out hout =>
      cases h
      have h3 := (mem_sortedDescDedup m _).mp hm
      have h4 := (List.mem_filter.mp h3).2
      exact of_decide_eq_true h4
    · cases h

/-- C8 counterexample: creating an event with the reminder string `"-5"`
(a negative offset) does NOT return a validation error — the command
succeeds and the offset is silently dropped, so the event is stored with an
empty reminder list. -/
theorem negative_offset_accepted :
    parse_reminders "-5" = Except.ok [] ∧
    (termin_cmd initState 7 "08.02.2026" "12:00" "T" "-5" "none").2 =
      Reply.created 1 ∧
    (termin_cmd initState 7 "08.02.2026" "12:00" "T" "-5" "none").2 ≠
      Reply.invalidDate ∧
    (termin_cmd initState 7 "08.02.2026" "12:00" "T" "-5" "none").1.events.map
      (fun e => e.reminders) = [[]] := by
  refine ⟨rfl, rfl, ?_, rfl⟩
  intro hcon
  exact Reply.noConfusion hcon

/-- C8 amended: a negative offset in the reminder string of event creation
is silently filtered out by `parse_reminders` rather than rejected: when
the date parses, creation succeeds and stores only the non-negative
offsets (only a non-numeric token makes the handler fail, with an uncaught
exception, not a validation reply). -/
theorem negative_offsets_filtered (s : State) (uid : Int)
    (datum uhrzeit titel erinnerung wiederholung : String) (dt : DateTime)
    (rems : List Int)
    (hdt : parse_date_time datum uhrzeit = some dt)
    (hrem : parse_reminders erinnerung = Except.ok rems) :
    (∀ m ∈ rems, 0 ≤ m) ∧
    termin_cmd s uid datum uhrzeit titel erinnerung wiederholung =
      ({ s with
          nextEventId := s.nextEventId + 1,
          events := s.events ++
            [⟨s.nextEventId, pyStripS titel, dt, rems, [], wiederholung,
              false, Target.channel ERINNERUNGS_CHANNEL_ID, uid⟩] },
        Reply.created s.nextEventId) := by
  refine ⟨parse_reminders_nonneg erinnerung rems hrem, ?_⟩
  unfold termin_cmd
  rw [hdt, hrem]

/-- C8 amended witness: the reminder string `"-5,10"` creates the event
with reminder list `[10]` — the negative offset vanished, no error. -/
theorem negative_offsets_filtered_witness :
    (∀ m ∈ [(10 : Int)], 0 ≤ m) ∧
    termin_cmd initState 7 "08.02.2026" "12:00" "T" "-5,10" "none" =
      ({ initState with
          nextEventId := 2,
          events := [⟨1, "T", ⟨2026, 2, 8, 720⟩, [10], [], "none",
            false, Target.channel ERINNERUNGS_CHANNEL_ID, 7⟩] },
        Reply.created 1) :=
  negative_offsets_filtered initState 7 "08.02.2026" "12:00" "T" "-5,10"
    "none" ⟨2026, 2, 8, 720⟩ [10] (by decide) rfl

/-- C10: if `/termin_edit` finds the event, the optional reminder edit
parses, a new date and/or time is supplied, and that new date/time string
fails to parse, then the handler returns the invalid-date error and the
persisted snapshot is exactly the one loaded — the already-applied
in-memory title/reminder/recurrence changes are discarded, never saved. -/
theorem edit_invalid_date_unchanged (s : State) (tid : Int)
    (datum uhrzeit titel erinnerung wiederholung : Option String)
    (i : Nat) (ev : Event)
    (hfind : findFirst (fun e => e.id == tid && !e.cancelled) s.events =
      some (i, ev))
    (hrem : ∀ e0, erinnerung = some e0 →
      ∃ r, parse_reminders e0 = Except.ok r)
    (hsupplied : (datum.isSome || uhrzeit.isSome) = true)
    (hparse : parse_date_time (datum.getD (fmtDate ev.datetime))
        (uhrzeit.getD (fmtTime ev.datetime)) = none) :
    termin_edit s tid datum uhrzeit titel erinnerung wiederholung =
      (s, Reply.invalidDate) := by
  have hbody : ∀ ev' : Event, ev'.datetime = ev.datetime →
      termin_edit_body s i ev' datum uhrzeit = (s, Reply.invalidDate) := by
    intro ev' hdt
    unfold termin_edit_body
    rw [if_pos hsupplied, hdt, hparse]
  have hdt3 : ∀ remsOpt : Option (List Int),
      (applyWiederholung wiederholung
        (applyErinnerung remsOpt (applyTitel titel ev))).datetime =
        ev.datetime := by
    intro remsOpt
    rw [applyWiederholung_datetime, applyErinnerung_datetime,
      applyTitel_datetime]
  unfold termin_edit
  rw [hfind]
  cases erinnerung with
  | none =>
    exact hbody (applyWiederholung wiederholung
      (applyErinnerung Option.none (applyTitel titel ev))) (hdt3 Option.none)
  | some e0 =>
    obtain ⟨r, hr⟩ := hrem e0 rfl
    have hpe : parseErinnerung (some e0) = Except.ok (some r) := by
      show Except.map some (parse_reminders e0) = Except.ok (some r)
      rw [hr]
      rfl
    rw [hpe]
    exact hbody (applyWiederholung wiederholung
      (applyErinnerung (some r) (applyTitel titel ev))) (hdt3 (some r))

/-- C10 witness: editing event 1 with an unparsable date `"99.99.2024"`
while also supplying a new title, reminder list and recurrence returns the
error and leaves the stored snapshot identical. -/
theorem edit_invalid_date_unchanged_witness :
    termin_edit
      ⟨[⟨1, "t", ⟨2026, 2, 8, 720⟩, [30], [30], "none", false,
        Target.channel 0, 7⟩], 2, [], 1⟩ 1
      (some "99.99.2024") Option.none (some "X") (some "5") (some "daily") =
      (⟨[⟨1, "t", ⟨2026, 2, 8, 720⟩, [30], [30], "none", false,
        Target.channel 0, 7⟩], 2, [], 1⟩, Reply.invalidDate) :=
  edit_invalid_date_unchanged
    ⟨[⟨1, "t", ⟨2026, 2, 8, 720⟩, [30], [30], "none", false,
      Target.channel 0, 7⟩], 2, [], 1⟩ 1
    (some "99.99.2024") Option.none (some "X") (some "5") (some "daily")
    0 ⟨1, "t", ⟨2026, 2, 8, 720⟩, [30], [30], "none", false,
      Target.channel 0, 7⟩
    (by decide)
    (fun e0 he => ⟨[5], by cases he; rfl⟩)
    rfl (by decide)

-- ### Abort analysis of the failure-aware tick

theorem getLast?_cons_some {α : Type} (a y : α) (l : List α)
    (h : l.getLast? = some y) : (a :: l).getLast? = some y := by
  cases l with
  | nil => simp at h
  | cons b m =>
    rw [List.getLast?_cons_cons]
    exact h

theorem getLast?_append_some {α : Type} (y : α) :
    ∀ (l1 l2 : List α), l2.getLast? = some y → (l1 ++ l2).getLast? = some y := by
  intro l1
  induction l1 with
  | nil => intro l2 h; simpa using h
  | cons a l ih =>
    intro l2 h
    rw [List.cons_append]
    exact getLast?_cons_some a y (l ++ l2) (ih l2 h)

theorem sendDMs_fail (fails : Int → Bool) (eid m : Int) :
    ∀ us : List Int, (sendDMs fails eid m us).2 = false →
      ∃ u, (sendDMs fails eid m us).1.getLast? = some (Delivery.dm eid u m) ∧
        fails u = true := by
  intro us
  induction us with
  | nil => intro h; simp [sendDMs] at h
  | cons u rest ih =>
    intro h
    simp only [sendDMs] at h ⊢
    by_cases hf : fails u = true
    · rw [if_pos hf] at h ⊢
      exact ⟨u, rfl, hf⟩
    · rw [if_neg hf] at h ⊢
      obtain ⟨u', hl, hf'⟩ := ih h
      exact ⟨u', getLast?_cons_some _ _ _ hl, hf'⟩

theorem deliverF_fail (fails : Int → Bool) (eid m : Int) (tgt : Target)
    (h : (deliverF fails eid m tgt).2 = false) :
    ∃ u, (deliverF fails eid m tgt).1.getLast? = some (Delivery.dm eid u m) ∧
      fails u = true := by
  cases tgt with
  | channel cid => simp [deliverF] at h
  | dm uids => exact sendDMs_fail fails eid m uids h

theorem remPassF_fail (fails : Int → Bool) (n dt : DateTime) (eid : Int)
    (tgt : Target) :
    ∀ (rems sent : List Int),
      (remPassF fails n dt eid tgt rems sent).2.2 = false →
      ∃ u m0,
        (remPassF fails n dt eid tgt rems sent).2.1.getLast? =
          some (Delivery.dm eid u m0) ∧ fails u = true := by
  intro rems
  induction rems with
  | nil => intro sent h; simp [remPassF] at h
  | cons m rest ih =>
    intro sent h
    simp only [remPassF] at h ⊢
    by_cases hm : m ∈ sent
    · rw [if_pos hm] at h ⊢
      exact ih sent h
    · rw [if_neg hm] at h ⊢
      by_cases hdue : dueB n dt m = true
      · rw [if_pos hdue] at h ⊢
        by_cases hd : (deliverF fails eid m tgt).2 = true
        · rw [if_pos hd] at h ⊢
          obtain ⟨u, m0, hl, hf⟩ := ih (sentInsert m sent) h
          exact ⟨u, m0, getLast?_append_some _ _ _ hl, hf⟩
        · rw [if_neg hd] at h ⊢
          obtain ⟨u, hl, hf⟩ :=
            deliverF_fail fails eid m tgt (Bool.not_eq_true _ ▸ hd)
          exact ⟨u, m, hl, hf⟩
      · rw [if_neg hdue] at h ⊢
        exact ih sent h

theorem tickEventF_fail (fails : Int → Bool) (n : DateTime) (ev : Event)
    (h : (tickEventF fails n ev).2.2 = false) :
    ∃ u m0,
      (tickEventF fails n ev).2.1.getLast? = some (Delivery.dm ev.id u m0) ∧
      fails u = true := by
  unfold tickEventF at h ⊢
  by_cases hc : ev.cancelled = true
  · rw [if_pos hc] at h
    simp at h
  · rw [if_neg hc] at h ⊢
    by_cases hok : (remPassF fails n ev.datetime ev.id ev.target ev.reminders
        ev.sent).2.2 = true
    · rw [if_pos hok] at h
      simp at h
    · rw [if_neg hok] at h ⊢
      exact remPassF_fail fails n ev.datetime ev.id ev.target ev.reminders
        ev.sent (Bool.not_eq_true _ ▸ hok)

theorem tickEventsF_fail (fails : Int → Bool) (n : DateTime) :
    ∀ evs : List Event, (tickEventsF fails n evs).2.2 = false →
      ∃ e u m0,
        (tickEventsF fails n evs).2.1.getLast? = some (Delivery.dm e u m0) ∧
        fails u = true := by
  intro evs
  induction evs with
  | nil => intro h; simp [tickEventsF] at h
  | cons ev rest ih =>
    intro h
    simp only [tickEventsF] at h ⊢
    by_cases hok : (tickEventF fails n ev).2.2 = true
    · rw [if_pos hok] at h ⊢
      obtain ⟨e, u, m0, hl, hf⟩ := ih h
      exact ⟨e, u, m0, getLast?_append_some _ _ _ hl, hf⟩
    · rw [if_neg hok] at h ⊢
      obtain ⟨u, m0, hl, hf⟩ :=
        tickEventF_fail fails n ev (Bool.not_eq_true _ ▸ hok)
      exact ⟨ev.id, u, m0, hl, hf⟩

/-- C7 amended: a delivery failure for one DM recipient is NOT caught per
recipient: the exception aborts the remaining recipients of that offset,
the remaining offsets and the remaining events of the tick — the failing
DM is the last delivery attempted — and `save_data` is skipped, so the
persisted snapshot is exactly the loaded one (the offset is not marked
sent and the whole tick is retried later); the error is caught and logged
once, at the tick level. -/
theorem dm_failure_aborts_tick (fails : Int → Bool) (n : DateTime)
    (s : State) (h : (tickStateF fails n s).2.2 = false) :
    (tickStateF fails n s).1 = s ∧
    ∃ e u m0,
      (tickStateF fails n s).2.1.getLast? = some (Delivery.dm e u m0) ∧
      fails u = true := by
  unfold tickStateF at h ⊢
  by_cases hok : (tickEventsF fails n s.events).2.2 = true
  · rw [if_pos hok] at h
    simp at h
  · rw [if_neg hok] at h ⊢
    exact ⟨rfl, tickEventsF_fail fails n s.events (Bool.not_eq_true _ ▸ hok)⟩

/-- C7 amended witness: two due events, the first a DM to recipients
`[1, 2]` where recipient 1 fails: the tick aborts with the failing DM as
last (and only) attempt and the snapshot unchanged. -/
theorem dm_failure_aborts_tick_witness :
    (tickStateF (fun u => u == 1) ⟨2026, 2, 8, 720⟩
      ⟨[⟨1, "t", ⟨2026, 2, 8, 720⟩, [30], [], "none", false,
          Target.dm [1, 2], 7⟩,
        ⟨2, "u", ⟨2026, 2, 8, 720⟩, [30], [], "none", false,
          Target.channel 0, 7⟩], 3, [], 1⟩).1 =
      ⟨[⟨1, "t", ⟨2026, 2, 8, 720⟩, [30], [], "none", false,
          Target.dm [1, 2], 7⟩,
        ⟨2, "u", ⟨2026, 2, 8, 720⟩, [30], [], "none", false,
          Target.channel 0, 7⟩], 3, [], 1⟩ ∧
    ∃ e u m0,
      (tickStateF (fun u => u == 1) ⟨2026, 2, 8, 720⟩
        ⟨[⟨1, "t", ⟨2026, 2, 8, 720⟩, [30], [], "none", false,
            Target.dm [1, 2], 7⟩,
          ⟨2, "u", ⟨2026, 2, 8, 720⟩, [30], [], "none", false,
            Target.channel 0, 7⟩], 3, [], 1⟩).2.1.getLast? =
        some (Delivery.dm e u m0) ∧ (fun u : Int => u == 1) u = true :=
  dm_failure_aborts_tick (fun u => u == 1) ⟨2026, 2, 8, 720⟩
    ⟨[⟨1, "t", ⟨2026, 2, 8, 720⟩, [30], [], "none", false,
        Target.dm [1, 2], 7⟩,
      ⟨2, "u", ⟨2026, 2, 8, 720⟩, [30], [], "none", false,
        Target.channel 0, 7⟩], 3, [], 1⟩ (by decide)

/-- C7 counterexample: in that same tick the failure of recipient 1 DOES
prevent the delivery attempt to recipient 2 and the channel delivery of
the second due event — the attempt list is exactly the one failing DM, so
the failure was not isolated to that recipient. -/
theorem dm_failure_not_isolated :
    (tickStateF (fun u => u == 1) ⟨2026, 2, 8, 720⟩
      ⟨[⟨1, "t", ⟨2026, 2, 8, 720⟩, [30], [], "none", false,
          Target.dm [1, 2], 7⟩,
        ⟨2, "u", ⟨2026, 2, 8, 720⟩, [30], [], "none", false,
          Target.channel 0, 7⟩], 3, [], 1⟩).2.1 = [Delivery.dm 1 1 30] ∧
    Delivery.dm 1 2 30 ∉
      (tickStateF (fun u => u == 1) ⟨2026, 2, 8, 720⟩
        ⟨[⟨1, "t", ⟨2026, 2, 8, 720⟩, [30], [], "none", false,
            Target.dm [1, 2], 7⟩,
          ⟨2, "u", ⟨2026, 2, 8, 720⟩, [30], [], "none", false,
            Target.channel 0, 7⟩], 3, [], 1⟩).2.1 ∧
    Delivery.channel 2 0 30 ∉
      (tickStateF (fun u => u == 1) ⟨2026, 2, 8, 720⟩
        ⟨[⟨1, "t", ⟨2026, 2, 8, 720⟩, [30], [], "none", false,
            Target.dm [1, 2], 7⟩,
          ⟨2, "u", ⟨2026, 2, 8, 720⟩, [30], [], "none", false,
            Target.channel 0, 7⟩], 3, [], 1⟩).2.1 ∧
    (tickStateF (fun u => u == 1) ⟨2026, 2, 8, 720⟩
      ⟨[⟨1, "t", ⟨2026, 2, 8, 720⟩, [30], [], "none", false,
          Target.dm [1, 2], 7⟩,
        ⟨2, "u", ⟨2026, 2, 8, 720⟩, [30], [], "none", false,
          Target.channel 0, 7⟩], 3, [], 1⟩).2.2 = false := by
  refine ⟨by decide, by decide, by decide, by decide⟩
